import Mathlib

/-!
Shallow embedding of `rebalance_marcos.py`, a personal investment-planning
calculator.  Python floats are modelled as rationals.  The monthly rate
`r_m = (1 + annual_return) ** (1/12) - 1`, a 12th root that the Python code
computes once per simulation, is passed to the embedded simulators and
solvers explicitly as a parameter `r_m`; for `annual_return = 0` the code
computes exactly `r_m = 0`, and for `annual_return ≥ 0` it computes
`r_m ≥ 0`.  Python dicts are modelled as association lists in insertion
order whose keys are unique.  Functions that `raise` are modelled with
`Except String`.
-/

set_option maxRecDepth 100000

namespace Rebalance

/-- Python `round` (used by the source as `int(round(x))`): round half to
even, on the exact rational value. -/
def pyround (q : ℚ) : ℤ :=
  let f := ⌊q⌋
  let r := q - (f : ℚ)
  if r < 1/2 then f
  else if 1/2 < r then f + 1
  else if f % 2 = 0 then f else f + 1

/-- Association-list lookup with a default value: Python `dict[k]` on a
present key, and `dict.get(k, d)` in general. -/
def lookupD (l : List (String × ℚ)) (k : String) (d : ℚ) : ℚ :=
  match l with
  | [] => d
  | x :: xs => if x.1 = k then x.2 else lookupD xs k d

/-- Sum of the values of an association list: Python `sum(d.values())`. -/
def sumVals (l : List (String × ℚ)) : ℚ :=
  (l.map Prod.snd).sum

/-- Python dataclass `Portfolio`. -/
structure Portfolio where
  holdings : List (String × ℚ)
  targets : List (String × ℚ)
  asset_types : Option (List (String × String)) := none

/-- Method `Portfolio.total_value`. -/
def totalValue (p : Portfolio) : ℚ :=
  sumVals p.holdings

/-- Method `Portfolio.current_weights`. -/
def currentWeights (p : Portfolio) : List (String × ℚ) :=
  if totalValue p = 0 then p.holdings.map (fun x => (x.1, (0 : ℚ)))
  else p.holdings.map (fun x => (x.1, x.2 / totalValue p))

/-- Python `set(holdings.keys()) == set(targets.keys())`. -/
def keysMatch (l₁ l₂ : List (String × ℚ)) : Prop :=
  (∀ k ∈ l₁.map Prod.fst, k ∈ l₂.map Prod.fst) ∧
  (∀ k ∈ l₂.map Prod.fst, k ∈ l₁.map Prod.fst)

instance keysMatch.decidable (l₁ l₂ : List (String × ℚ)) :
    Decidable (keysMatch l₁ l₂) := by
  unfold keysMatch
  infer_instance

/-- The per-asset `needed` value computed in the loop of
`compute_contribution_plan` (lines 43-57 of the source), threshold logic
included: both branches of the threshold check compute the same value, as
in the source. -/
def neededFor (holdings current_w : List (String × ℚ)) (total_after thr : ℚ)
    (t : String × ℚ) : ℚ :=
  let target_value := t.2 * total_after
  let current_value := lookupD holdings t.1 0
  if thr > 0 then
    let curr_weight := lookupD current_w t.1 0
    let d := |curr_weight - t.2|
    if d < thr then max 0 (target_value - current_value)
    else max 0 (target_value - current_value)
  else max 0 (target_value - current_value)

/-- The dict `needed_raw`, built over `targets.items()` in order. -/
def neededRaw (p : Portfolio) (mc thr : ℚ) : List (String × ℚ) :=
  let total_after := totalValue p + mc
  let current_w := currentWeights p
  p.targets.map (fun t => (t.1, neededFor p.holdings current_w total_after thr t))

/-- The fallback plan returned when `total_needed == 0`
(lines 61-65 of the source): unrounded `monthly_contribution * targets[a]`
over the holdings keys. -/
def fallbackPlan (p : Portfolio) (mc : ℚ) : List (String × ℚ) :=
  p.holdings.map (fun h => (h.1, mc * lookupD p.targets h.1 0))

/-- Lines 67-77 of the source: proportional shares (with the inner dead
`total_needed == 0` guard kept) followed by the per-asset `int(round(.))`. -/
def roundedContribs (L : List (String × ℚ)) (total_needed mc : ℚ) :
    List (String × ℚ) :=
  (L.map (fun x => (x.1, if total_needed = 0 then (0 : ℚ)
      else x.2 / total_needed * mc))).map
    (fun x => (x.1, ((pyround x.2 : ℤ) : ℚ)))

/-- Python `max(contributions, key=lambda k: contributions[k])`: the key of
the first entry holding the maximal value (`max` replaces its candidate only
on a strictly larger value).  The empty case is unreachable where this is
used, since Python `max` on an empty dict raises. -/
def argmaxKey (l : List (String × ℚ)) : String :=
  match l with
  | [] => ""
  | x :: xs => (xs.foldl (fun b e => if e.2 > b.2 then e else b) x).1

/-- Python `contributions[biggest] = contributions[biggest] + diff`: adds
`d` to the value of the first entry whose key is `k`. -/
def addToFirst (l : List (String × ℚ)) (k : String) (d : ℚ) :
    List (String × ℚ) :=
  match l with
  | [] => []
  | x :: xs => if x.1 = k then (x.1, x.2 + d) :: xs else x :: addToFirst xs k d

/-- Body of `compute_contribution_plan` after the key-set check. -/
def planFor (p : Portfolio) (mc thr : ℚ) : List (String × ℚ) :=
  let L := neededRaw p mc thr
  let total_needed := sumVals L
  if total_needed = 0 then fallbackPlan p mc
  else
    let rounded := roundedContribs L total_needed mc
    let diff : ℤ := pyround (mc - sumVals rounded)
    if diff = 0 then rounded
    else addToFirst rounded (argmaxKey rounded) (diff : ℚ)

/-- Function `compute_contribution_plan` (lines 22-84 of the source). -/
def compute_contribution_plan (p : Portfolio) (monthly_contribution : ℚ)
    (rebalance_threshold : ℚ) : Except String (List (String × ℚ)) :=
  if keysMatch p.holdings p.targets then
    .ok (planFor p monthly_contribution rebalance_threshold)
  else .error "Las claves de holdings y targets deben coincidir."

/-- The month loop of `simulate_constant_plan` (lines 209-212): each month
adds the contribution, then applies growth, then appends the value to the
trace.  Returns the final value and the trace. -/
def simConstSteps (c r : ℚ) : ℕ → ℚ → ℚ × List ℚ
  | 0, v => (v, [])
  | n + 1, v =>
    let v2 := (v + c) * (1 + r)
    let rest := simConstSteps c r n v2
    (rest.1, v2 :: rest.2)

/-- Function `simulate_constant_plan` (lines 190-214), with the monthly
rate `r_m` passed explicitly (the source computes it from `annual_return`
as a 12th root). -/
def simulate_constant_plan (current_total monthly_contribution : ℚ)
    (years : ℤ) (r_m extra_savings : ℚ) : Except String (ℚ × List ℚ) :=
  if years ≤ 0 then .error "years debe ser > 0"
  else .ok (simConstSteps monthly_contribution r_m (years * 12).toNat
    (current_total + extra_savings))

/-- The month loop of `simulate_dca_ramp` (lines 109-118): the month index
`m` (0-based) selects a linearly interpolated contribution, with the whole
horizon pinned to `final` when `months = 1`. -/
def simRampFrom (initial final r : ℚ) (months : ℕ) :
    ℕ → ℕ → ℚ → ℚ × List ℚ
  | 0, _, v => (v, [])
  | n + 1, m, v =>
    let contrib := if months = 1 then final
      else initial + (final - initial) * ((m : ℚ) / ((months : ℚ) - 1))
    let v2 := (v + contrib) * (1 + r)
    let rest := simRampFrom initial final r months n (m + 1) v2
    (rest.1, v2 :: rest.2)

/-- Function `simulate_dca_ramp` (lines 87-120), with the monthly rate
`r_m` passed explicitly. -/
def simulate_dca_ramp (initial_monthly final_monthly : ℚ) (years : ℤ)
    (r_m initial_value : ℚ) : Except String (ℚ × List ℚ) :=
  let months : ℤ := years * 12
  if months ≤ 0 then .error "years debe ser > 0"
  else .ok (simRampFrom initial_monthly final_monthly r_m months.toNat
    months.toNat 0 initial_value)

/-- One binary-search loop shared by both goal solvers: `n` iterations of
`mid = (low+high)/2; if f(mid) < goal: low = mid else: high = mid`. -/
def bisectLoop (f : ℚ → ℚ) (goal : ℚ) : ℕ → ℚ × ℚ → ℚ × ℚ
  | 0, lh => lh
  | n + 1, lh =>
    let mid := (lh.1 + lh.2) / 2
    if f mid < goal then bisectLoop f goal n (mid, lh.2)
    else bisectLoop f goal n (lh.1, mid)

/-- Inner function `net_final_with_monthly` of
`required_constant_monthly_for_goal` (lines 152-170). -/
def netFinalWithMonthly (r_m current_total extra_savings tax_rate : ℚ)
    (years : ℤ) (C : ℚ) : ℚ :=
  let months : ℤ := years * 12
  let C_int : ℤ := if pyround C < 0 then 0 else pyround C
  let final_value :=
    (simConstSteps (C_int : ℚ) r_m months.toNat
      (current_total + extra_savings)).1
  let principal_total := current_total + extra_savings + (C_int : ℚ) * (months : ℚ)
  let gain := max 0 (final_value - principal_total)
  let tax := tax_rate * gain
  final_value - tax

/-- Body of `required_constant_monthly_for_goal` after validation
(lines 150-187): short-circuit to 0, else 40 bisection iterations and
`int(round(high))`. -/
def required_constant_monthly_core (r_m current_total objetivo_final : ℚ)
    (years : ℤ) (extra_savings tax_rate : ℚ) : ℤ :=
  let months : ℤ := years * 12
  if netFinalWithMonthly r_m current_total extra_savings tax_rate years 0
      ≥ objetivo_final then 0
  else
    let lh := bisectLoop
      (netFinalWithMonthly r_m current_total extra_savings tax_rate years)
      objetivo_final 40
      (0, max (objetivo_final / (max (months : ℚ) 1) * 2) 5000)
    pyround lh.2

/-- Function `required_constant_monthly_for_goal` (lines 124-187), with the
monthly rate `r_m` passed explicitly. -/
def required_constant_monthly_for_goal (r_m current_total objetivo_final : ℚ)
    (years : ℤ) (annual_return extra_savings tax_rate : ℚ) :
    Except String ℤ :=
  if years ≤ 0 then .error "years debe ser > 0"
  else if annual_return < 0 then .error "annual_return no puede ser negativo"
  else if ¬ (0 ≤ tax_rate ∧ tax_rate ≤ 1) then
    .error "tax_rate debe estar entre 0 y 1"
  else .ok (required_constant_monthly_core r_m current_total objetivo_final
    years extra_savings tax_rate)

/-- One entry of the per-year summary of
`required_growing_monthlies_for_goal` (the Python dict with keys `year`,
`start`, `end`, `avg`; `end` is spelled `stop` here). -/
structure ResumenEntry where
  year : ℤ
  start : ℤ
  stop : ℤ
  avg : ℤ

/-- Inner function `net_final_con_final_monthly` of
`required_growing_monthlies_for_goal` (lines 248-265). -/
def netFinalConFinalMonthly (r_m current_total extra_savings tax_rate
    initial_monthly : ℚ) (years : ℤ) (final_monthly : ℚ) : ℚ :=
  let months_total : ℤ := years * 12
  let val := (simRampFrom initial_monthly final_monthly r_m
    months_total.toNat months_total.toNat 0
    (current_total + extra_savings)).1
  let contrib_total := (months_total : ℚ) * (initial_monthly + final_monthly) / 2
  let principal_total := current_total + extra_savings + contrib_total
  let gain := max 0 (val - principal_total)
  let tax := tax_rate * gain
  val - tax

/-- Body of `required_growing_monthlies_for_goal` after validation
(lines 246-301): 30 bisection iterations, the rounded midpoint, and the
per-year summary by linear interpolation over month indices. -/
def required_growing_core (r_m current_total objetivo_final : ℚ)
    (years : ℤ) (initial_monthly extra_savings tax_rate : ℚ) :
    ℤ × List ResumenEntry :=
  let months_total : ℤ := years * 12
  let lh := bisectLoop
    (netFinalConFinalMonthly r_m current_total extra_savings tax_rate
      initial_monthly years)
    objetivo_final 30 (0, max (initial_monthly * 10) 5000)
  let final_monthly_aprox : ℤ := pyround ((lh.1 + lh.2) / 2)
  let resumen := (List.range years.toNat).map (fun i =>
    let yr : ℤ := (i : ℤ) + 1
    let start_idx : ℤ := (yr - 1) * 12
    let end_idx0 : ℤ := yr * 12 - 1
    let end_idx : ℤ := if end_idx0 ≥ months_total then months_total - 1
      else end_idx0
    let start_month : ℤ := if months_total > 1 then
        pyround (initial_monthly +
          ((final_monthly_aprox : ℚ) - initial_monthly) *
            ((start_idx : ℚ) / ((months_total : ℚ) - 1)))
      else final_monthly_aprox
    let end_month : ℤ := if months_total > 1 then
        pyround (initial_monthly +
          ((final_monthly_aprox : ℚ) - initial_monthly) *
            ((end_idx : ℚ) / ((months_total : ℚ) - 1)))
      else final_monthly_aprox
    let avg_month : ℤ := pyround (((start_month : ℚ) + (end_month : ℚ)) / 2)
    ⟨yr, start_month, end_month, avg_month⟩)
  (final_monthly_aprox, resumen)

/-- Function `required_growing_monthlies_for_goal` (lines 217-301), with
the monthly rate `r_m` passed explicitly. -/
def required_growing_monthlies_for_goal (r_m current_total objetivo_final : ℚ)
    (years : ℤ) (annual_return initial_monthly extra_savings tax_rate : ℚ) :
    Except String (ℤ × List ResumenEntry) :=
  if years ≤ 0 then .error "years debe ser > 0"
  else if annual_return < 0 then .error "annual_return no puede ser negativo"
  else if ¬ (0 ≤ tax_rate ∧ tax_rate ≤ 1) then
    .error "tax_rate debe estar entre 0 y 1"
  else .ok (required_growing_core r_m current_total objetivo_final years
    initial_monthly extra_savings tax_rate)

/-! ## Helper lemmas -/

theorem pyround_intCast (n : ℤ) : pyround ((n : ℚ)) = n := by
  norm_num [pyround]

theorem sumVals_nil : sumVals [] = 0 := rfl

theorem sumVals_cons (x : String × ℚ) (l : List (String × ℚ)) :
    sumVals (x :: l) = x.2 + sumVals l := by
  simp [sumVals]

theorem sumVals_map {α : Type} (l : List α) (f : α → String) (g : α → ℚ) :
    sumVals (l.map fun x => (f x, g x)) = (l.map g).sum := by
  simp only [sumVals, List.map_map]
  rfl

theorem neededFor_eq (holdings current_w : List (String × ℚ)) (ta thr : ℚ)
    (t : String × ℚ) :
    neededFor holdings current_w ta thr t =
      max 0 (t.2 * ta - lookupD holdings t.1 0) := by
  simp only [neededFor]
  split_ifs <;> rfl

theorem neededRaw_eq (p : Portfolio) (mc thr : ℚ) :
    neededRaw p mc thr = p.targets.map (fun t =>
      (t.1, max 0 (t.2 * (totalValue p + mc) - lookupD p.holdings t.1 0))) := by
  simp only [neededRaw, neededFor_eq]

theorem simConstSteps_length (c r : ℚ) (n : ℕ) :
    ∀ v, (simConstSteps c r n v).2.length = n := by
  induction n with
  | zero => intro v; rfl
  | succ n ih => intro v; simp [simConstSteps, ih]

theorem simRampFrom_length (i f r : ℚ) (months n : ℕ) :
    ∀ m v, (simRampFrom i f r months n m v).2.length = n := by
  induction n with
  | zero => intro m v; rfl
  | succ n ih => intro m v; simp [simRampFrom, ih]

theorem simConstSteps_fst_mono (r : ℚ) (hr : 0 ≤ r) (n : ℕ) :
    ∀ v₁ v₂ c₁ c₂ : ℚ, v₁ ≤ v₂ → c₁ ≤ c₂ →
      (simConstSteps c₁ r n v₁).1 ≤ (simConstSteps c₂ r n v₂).1 := by
  induction n with
  | zero => intro v₁ v₂ c₁ c₂ hv _; exact hv
  | succ n ih =>
    intro v₁ v₂ c₁ c₂ hv hc
    simp only [simConstSteps]
    exact ih _ _ _ _
      (mul_le_mul_of_nonneg_right (add_le_add hv hc) (by linarith)) hc

theorem simRampFrom_const (C r : ℚ) (months n : ℕ) :
    ∀ m v, simRampFrom C C r months n m v = simConstSteps C r n v := by
  induction n with
  | zero => intro m v; rfl
  | succ n ih =>
    intro m v
    simp only [simRampFrom, simConstSteps]
    have hc : (if months = 1 then C
        else C + (C - C) * ((m : ℚ) / ((months : ℚ) - 1))) = C := by
      split_ifs <;> ring
    rw [hc, ih]

theorem sum_lookupD_self (l : List (String × ℚ))
    (h : (l.map Prod.fst).Nodup) :
    ((l.map Prod.fst).map (fun k => lookupD l k 0)).sum = sumVals l := by
  induction l with
  | nil => rfl
  | cons a t ih =>
    rw [List.map_cons] at h
    obtain ⟨hna, hnd⟩ := List.nodup_cons.mp h
    simp only [List.map_cons, List.sum_cons]
    have hl : lookupD (a :: t) a.1 0 = a.2 := by simp [lookupD]
    have hm : (t.map Prod.fst).map (fun k => lookupD (a :: t) k 0)
        = (t.map Prod.fst).map (fun k => lookupD t k 0) := by
      apply List.map_congr_left
      intro k hk
      have hne : ¬ a.1 = k := fun e => hna (e ▸ hk)
      simp [lookupD, hne]
    rw [hl, hm, ih hnd, sumVals_cons]

theorem sum_lookupD_perm (l₁ l₂ : List (String × ℚ))
    (h₁ : (l₁.map Prod.fst).Nodup) (h₂ : (l₂.map Prod.fst).Nodup)
    (hk : keysMatch l₁ l₂) :
    (l₁.map (fun x => lookupD l₂ x.1 0)).sum = sumVals l₂ := by
  have hperm : (l₁.map Prod.fst).Perm (l₂.map Prod.fst) :=
    (List.perm_ext_iff_of_nodup h₁ h₂).mpr
      (fun a => ⟨fun h => hk.1 a h, fun h => hk.2 a h⟩)
  have hmm : l₁.map (fun x => lookupD l₂ x.1 0)
      = (l₁.map Prod.fst).map (fun k => lookupD l₂ k 0) := by
    rw [List.map_map]
    rfl
  rw [hmm, (hperm.map (fun k => lookupD l₂ k 0)).sum_eq, sum_lookupD_self l₂ h₂]

theorem sum_map_sub {α : Type} (l : List α) (f g : α → ℚ) :
    (l.map fun x => f x - g x).sum = (l.map f).sum - (l.map g).sum := by
  induction l with
  | nil => simp
  | cons a t ih => simp [ih]; ring

theorem total_needed_ge (p : Portfolio) (mc thr : ℚ)
    (hH : (p.holdings.map Prod.fst).Nodup)
    (hT : (p.targets.map Prod.fst).Nodup)
    (hK : keysMatch p.holdings p.targets) (hS : sumVals p.targets = 1) :
    mc ≤ sumVals (neededRaw p mc thr) := by
  rw [neededRaw_eq, sumVals_map]
  have h1 : (p.targets.map (fun t =>
        t.2 * (totalValue p + mc) - lookupD p.holdings t.1 0)).sum
      ≤ (p.targets.map (fun t =>
        max 0 (t.2 * (totalValue p + mc) - lookupD p.holdings t.1 0))).sum :=
    List.sum_le_sum (fun i _ => le_max_right _ _)
  have h2 : (p.targets.map (fun t =>
        t.2 * (totalValue p + mc) - lookupD p.holdings t.1 0)).sum
      = sumVals p.targets * (totalValue p + mc) - sumVals p.holdings := by
    rw [sum_map_sub, List.sum_map_mul_right,
      sum_lookupD_perm p.targets p.holdings hT hH ⟨hK.2, hK.1⟩]
    rfl
  rw [h2, hS] at h1
  have hT0 : sumVals p.holdings = totalValue p := rfl
  rw [hT0] at h1
  linarith

theorem planFor_eq_fallback (p : Portfolio) (mc thr : ℚ)
    (h : sumVals (neededRaw p mc thr) = 0) :
    planFor p mc thr = fallbackPlan p mc := by
  simp only [planFor]
  rw [if_pos h]

theorem planFor_eq_main (p : Portfolio) (mc thr : ℚ)
    (h : sumVals (neededRaw p mc thr) ≠ 0) :
    planFor p mc thr =
      (if pyround (mc - sumVals (roundedContribs (neededRaw p mc thr)
            (sumVals (neededRaw p mc thr)) mc)) = 0
       then roundedContribs (neededRaw p mc thr)
         (sumVals (neededRaw p mc thr)) mc
       else addToFirst
         (roundedContribs (neededRaw p mc thr)
           (sumVals (neededRaw p mc thr)) mc)
         (argmaxKey (roundedContribs (neededRaw p mc thr)
           (sumVals (neededRaw p mc thr)) mc))
         ((pyround (mc - sumVals (roundedContribs (neededRaw p mc thr)
           (sumVals (neededRaw p mc thr)) mc)) : ℤ) : ℚ)) := by
  simp only [planFor]
  rw [if_neg h]

theorem sumVals_intCast_map (l : List (String × ℚ)) (f : String × ℚ → ℤ) :
    sumVals (l.map fun x => (x.1, ((f x : ℤ) : ℚ))) = ((l.map f).sum : ℚ) := by
  induction l with
  | nil => rfl
  | cons a t ih =>
    simp only [List.map_cons, sumVals_cons, List.sum_cons, ih]
    push_cast
    ring

theorem roundedContribs_eq (L : List (String × ℚ)) (tn mc : ℚ) :
    roundedContribs L tn mc = L.map (fun x =>
      (x.1, ((pyround (if tn = 0 then (0 : ℚ) else x.2 / tn * mc) : ℤ) : ℚ))) := by
  simp only [roundedContribs, List.map_map]
  rfl

theorem mem_roundedContribs (L : List (String × ℚ)) (tn mc : ℚ) :
    ∀ y ∈ roundedContribs L tn mc, ∃ z : ℤ, y.2 = (z : ℚ) := by
  rw [roundedContribs_eq]
  intro y hy
  rcases List.mem_map.mp hy with ⟨x, _, rfl⟩
  exact ⟨_, rfl⟩

theorem foldl_choice_mem (xs : List (String × ℚ)) :
    ∀ x, xs.foldl (fun b e => if e.2 > b.2 then e else b) x ∈ x :: xs := by
  induction xs with
  | nil => intro x; exact List.mem_cons_self x []
  | cons y ys ih =>
    intro x
    simp only [List.foldl_cons]
    rcases List.mem_cons.mp (ih (if y.2 > x.2 then y else x)) with h | h
    · rw [h]
      split_ifs
      · exact List.mem_cons_of_mem _ (List.mem_cons_self _ _)
      · exact List.mem_cons_self _ _
    · exact List.mem_cons_of_mem _ (List.mem_cons_of_mem _ h)

theorem argmaxKey_mem (l : List (String × ℚ)) (h : l ≠ []) :
    argmaxKey l ∈ l.map Prod.fst := by
  match l, h with
  | x :: xs, _ => exact List.mem_map_of_mem Prod.fst (foldl_choice_mem xs x)

theorem sumVals_addToFirst (l : List (String × ℚ)) (k : String) (d : ℚ)
    (h : k ∈ l.map Prod.fst) : sumVals (addToFirst l k d) = sumVals l + d := by
  induction l with
  | nil => simp at h
  | cons a t ih =>
    simp only [addToFirst]
    by_cases hc : a.1 = k
    · rw [if_pos hc, sumVals_cons, sumVals_cons]
      ring
    · have hk : k ∈ t.map Prod.fst := by
        rw [List.map_cons] at h
        rcases List.mem_cons.mp h with h1 | h1
        · exact absurd h1.symm hc
        · exact h1
      rw [if_neg hc, sumVals_cons, sumVals_cons, ih hk]
      ring

theorem mem_addToFirst (l : List (String × ℚ)) (k : String) (d : ℚ) :
    ∀ y ∈ addToFirst l k d, y ∈ l ∨ ∃ x ∈ l, y = (x.1, x.2 + d) := by
  induction l with
  | nil => intro y hy; simp [addToFirst] at hy
  | cons a t ih =>
    intro y hy
    simp only [addToFirst] at hy
    split_ifs at hy with hc
    · rcases List.mem_cons.mp hy with h | h
      · exact Or.inr ⟨a, List.mem_cons_self _ _, h⟩
      · exact Or.inl (List.mem_cons_of_mem _ h)
    · rcases List.mem_cons.mp hy with h | h
      · exact Or.inl (h ▸ List.mem_cons_self _ _)
      · rcases ih y h with h1 | ⟨x, hx, he⟩
        · exact Or.inl (List.mem_cons_of_mem _ h1)
        · exact Or.inr ⟨x, List.mem_cons_of_mem _ hx, he⟩

/-! ## Claim theorems -/

/-- C3: for every portfolio, monthly contribution and threshold value,
`compute_contribution_plan` returns exactly the same plan with that
threshold as with threshold 0: the parameter has no effect, because both
branches of the threshold check in the source compute the same value. -/
theorem C3_threshold_no_effect (p : Portfolio) (mc thr : ℚ) :
    compute_contribution_plan p mc thr = compute_contribution_plan p mc 0 := by
  simp only [compute_contribution_plan, planFor, neededRaw_eq]

/-- C9: `current_weights` returns the all-zero mapping over the holdings
keys when the total value is 0, and otherwise `holdings[a] / total_value`
for every asset; whenever the total value is positive the weights sum
to 1. -/
theorem C9_current_weights (p : Portfolio) :
    currentWeights p = (if totalValue p = 0 then
        p.holdings.map (fun x => (x.1, (0 : ℚ)))
      else p.holdings.map (fun x => (x.1, x.2 / totalValue p))) ∧
    (0 < totalValue p → sumVals (currentWeights p) = 1) := by
  constructor
  · rfl
  · intro h
    have h0 : totalValue p ≠ 0 := ne_of_gt h
    unfold currentWeights
    rw [if_neg h0, sumVals_map]
    simp only [div_eq_mul_inv]
    rw [List.sum_map_mul_right]
    have hv : (p.holdings.map fun x => x.2).sum = totalValue p := rfl
    rw [hv, mul_inv_cancel₀ h0]

theorem C9_current_weights_witness :
    0 < totalValue ⟨[("A", 1), ("B", 1)], [], none⟩ ∧
      sumVals (currentWeights ⟨[("A", 1), ("B", 1)], [], none⟩) = 1 :=
  ⟨by with_unfolding_all decide,
    (C9_current_weights ⟨[("A", 1), ("B", 1)], [], none⟩).2
      (by with_unfolding_all decide)⟩

/-- C4: for every `years > 0`, both simulators succeed and return a trace
of length exactly `years * 12`. -/
theorem C4_trace_lengths (current mc r extra initial fm v0 : ℚ) (years : ℤ)
    (h : 0 < years) :
    (∃ fv t, simulate_constant_plan current mc years r extra = .ok (fv, t) ∧
      (t.length : ℤ) = years * 12) ∧
    (∃ fv t, simulate_dca_ramp initial fm years r v0 = .ok (fv, t) ∧
      (t.length : ℤ) = years * 12) := by
  have h12 : ¬ years * 12 ≤ 0 := by omega
  have hnn : ((years * 12).toNat : ℤ) = years * 12 :=
    Int.toNat_of_nonneg (by omega)
  constructor
  · rw [simulate_constant_plan, if_neg (not_le.mpr h)]
    exact ⟨_, _, rfl, by rw [simConstSteps_length, hnn]⟩
  · simp only [simulate_dca_ramp]
    rw [if_neg h12]
    exact ⟨_, _, rfl, by rw [simRampFrom_length, hnn]⟩

theorem C4_trace_lengths_witness :
    (0 : ℤ) < 1 ∧
    ((∃ fv t, simulate_constant_plan 0 5 1 0 0 = .ok (fv, t) ∧
        (t.length : ℤ) = 1 * 12) ∧
      (∃ fv t, simulate_dca_ramp 2 4 1 0 3 = .ok (fv, t) ∧
        (t.length : ℤ) = 1 * 12)) :=
  ⟨by decide, C4_trace_lengths 0 5 0 0 2 4 3 1 (by decide)⟩

/-- C5: both simulators advance one step per month, in order
`value = (value + contribution) * (1 + r_m)` — the contribution is added
before growth is applied — and the concrete scenario
`simulate_constant_plan(current_total=0, monthly_contribution=100,
years=1, annual_return=0.0)` (the source computes `r_m = 0` exactly there)
yields final value 1200 with a trace of length 12 ending in 1200. -/
theorem C5_step_order_and_scenario :
    (∀ (v c r : ℚ) (n : ℕ), simConstSteps c r (n + 1) v =
      ((simConstSteps c r n ((v + c) * (1 + r))).1,
        ((v + c) * (1 + r)) :: (simConstSteps c r n ((v + c) * (1 + r))).2)) ∧
    (∀ (initial fm r : ℚ) (months n m : ℕ) (v : ℚ),
      simRampFrom initial fm r months (n + 1) m v =
        (let contrib := if months = 1 then fm
          else initial + (fm - initial) * ((m : ℚ) / ((months : ℚ) - 1));
        ((simRampFrom initial fm r months n (m + 1) ((v + contrib) * (1 + r))).1,
          ((v + contrib) * (1 + r)) ::
            (simRampFrom initial fm r months n (m + 1)
              ((v + contrib) * (1 + r))).2))) ∧
    simulate_constant_plan 0 100 1 0 0 = .ok (1200,
      [100, 200, 300, 400, 500, 600, 700, 800, 900, 1000, 1100, 1200]) ∧
    ([100, 200, 300, 400, 500, 600, 700, 800, 900, 1000, 1100,
      (1200 : ℚ)].length = 12 ∧
     [100, 200, 300, 400, 500, 600, 700, 800, 900, 1000, 1100,
      (1200 : ℚ)].getLast? = some 1200) :=
  ⟨fun _ _ _ _ => rfl, fun _ _ _ _ _ _ _ => rfl, by with_unfolding_all rfl,
    by with_unfolding_all decide⟩

/-- C6: for fixed horizon, rate and starting amounts, the final value of
`simulate_constant_plan` is monotonically non-decreasing in the monthly
contribution; `0 ≤ r_m` renders `annual_return ≥ 0`, under which the
source computes a nonnegative monthly rate. -/
theorem C6_final_value_monotone (current extra r c₁ c₂ : ℚ) (years : ℤ)
    (hy : 0 < years) (hr : 0 ≤ r) (hc : c₁ ≤ c₂) :
    ∃ v₁ t₁ v₂ t₂,
      simulate_constant_plan current c₁ years r extra = .ok (v₁, t₁) ∧
      simulate_constant_plan current c₂ years r extra = .ok (v₂, t₂) ∧
      v₁ ≤ v₂ := by
  rw [simulate_constant_plan, if_neg (not_le.mpr hy),
    simulate_constant_plan, if_neg (not_le.mpr hy)]
  exact ⟨_, _, _, _, rfl, rfl,
    simConstSteps_fst_mono r hr _ _ _ _ _ (le_refl _) hc⟩

theorem C6_final_value_monotone_witness :
    (0 : ℤ) < 1 ∧ (0 : ℚ) ≤ 0 ∧ (1 : ℚ) ≤ 2 ∧
    (∃ v₁ t₁ v₂ t₂,
      simulate_constant_plan 10 1 1 0 0 = .ok (v₁, t₁) ∧
      simulate_constant_plan 10 2 1 0 0 = .ok (v₂, t₂) ∧
      v₁ ≤ v₂) :=
  ⟨by decide, le_refl 0, by with_unfolding_all decide,
    C6_final_value_monotone 10 0 0 1 2 1 (by decide) (le_refl 0)
      (by with_unfolding_all decide)⟩

/-- C10: a ramp with equal endpoints coincides with the constant plan:
for every contribution `C`, every `years > 0`, every monthly rate and
every starting value, `simulate_dca_ramp C C years r v` returns exactly
the same final value and trace as
`simulate_constant_plan v C years r 0`. -/
theorem C10_ramp_equals_constant (C : ℚ) (years : ℤ) (r v : ℚ)
    (h : 0 < years) :
    simulate_dca_ramp C C years r v = simulate_constant_plan v C years r 0 := by
  simp only [simulate_dca_ramp, simulate_constant_plan]
  rw [if_neg (by omega : ¬ years * 12 ≤ 0), if_neg (not_le.mpr h),
    simRampFrom_const, add_zero]

theorem C10_ramp_equals_constant_witness :
    (0 : ℤ) < 1 ∧
      simulate_dca_ramp 5 5 1 0 7 = simulate_constant_plan 7 5 1 0 0 :=
  ⟨by decide, C10_ramp_equals_constant 5 1 0 7 (by decide)⟩

/-- C2: each core operation fails exactly under its listed precondition
violation — `compute_contribution_plan` exactly when the key sets of
holdings and targets differ, and both goal solvers exactly when
`years ≤ 0`, `annual_return < 0`, or `tax_rate` lies outside `[0, 1]`; the
`Except` result carries no partial value on failure. -/
theorem C2_error_conditions :
    (∀ (p : Portfolio) (mc thr : ℚ),
      (∃ e, compute_contribution_plan p mc thr = .error e) ↔
        ¬ keysMatch p.holdings p.targets) ∧
    (∀ (r_m ct obj ar ex tax : ℚ) (years : ℤ),
      (∃ e, required_constant_monthly_for_goal r_m ct obj years ar ex tax =
        .error e) ↔ (years ≤ 0 ∨ ar < 0 ∨ ¬ (0 ≤ tax ∧ tax ≤ 1))) ∧
    (∀ (r_m ct obj ar im ex tax : ℚ) (years : ℤ),
      (∃ e, required_growing_monthlies_for_goal r_m ct obj years ar im ex tax =
        .error e) ↔ (years ≤ 0 ∨ ar < 0 ∨ ¬ (0 ≤ tax ∧ tax ≤ 1))) := by
  refine ⟨?_, ?_, ?_⟩
  · intro p mc thr
    unfold compute_contribution_plan
    split_ifs with h <;> simp [h]
  · intro r_m ct obj ar ex tax years
    unfold required_constant_monthly_for_goal
    split_ifs <;> simp [*]
  · intro r_m ct obj ar im ex tax years
    unfold required_growing_monthlies_for_goal
    split_ifs <;> simp [*]

/-- C8: `required_constant_monthly_for_goal` returns 0 whenever the
net-of-tax final value of the zero-contribution plan already reaches the
goal; the witness instantiates the concrete scenario
`required_constant_monthly_for_goal(current_total=0, objetivo_final=0,
years=1, annual_return=0.05)` (with a concrete monthly rate, on which the
result does not depend). -/
theorem C8_zero_when_goal_met (r_m current objetivo annual extra tax : ℚ)
    (years : ℤ) (hy : 0 < years) (ha : 0 ≤ annual) (ht0 : 0 ≤ tax)
    (ht1 : tax ≤ 1)
    (hmet : netFinalWithMonthly r_m current extra tax years 0 ≥ objetivo) :
    required_constant_monthly_for_goal r_m current objetivo years annual
      extra tax = .ok 0 := by
  rw [required_constant_monthly_for_goal, if_neg (not_le.mpr hy),
    if_neg (not_lt.mpr ha), if_neg (not_not_intro ⟨ht0, ht1⟩)]
  simp only [required_constant_monthly_core]
  rw [if_pos hmet]

theorem C8_zero_when_goal_met_witness :
    (0 : ℤ) < 1 ∧ (0 : ℚ) ≤ 1/20 ∧ (0 : ℚ) ≤ 0 ∧ (0 : ℚ) ≤ 1 ∧
    netFinalWithMonthly (1/100) 0 0 0 1 0 ≥ 0 ∧
    required_constant_monthly_for_goal (1/100) 0 0 1 (1/20) 0 0 = .ok 0 :=
  ⟨by decide, by with_unfolding_all decide, le_refl 0,
    by with_unfolding_all decide, by with_unfolding_all decide,
    C8_zero_when_goal_met (1/100) 0 0 (1/20) 0 0 1 (by decide)
      (by with_unfolding_all decide) (le_refl 0)
      (by with_unfolding_all decide) (by with_unfolding_all decide)⟩

/-- C7: the code violates the claim (and its own docstring, which promises
a contribution-only plan with no sale): at holdings all 0 over five assets
with targets 1/5 each and monthly contribution 3, every share rounds to 1,
the residual −2 is added to the first asset, and the returned plan assigns
it −1. -/
theorem C7_negative_amount_at_input :
    compute_contribution_plan
      ⟨[("A", 0), ("B", 0), ("C", 0), ("D", 0), ("E", 0)],
       [("A", 1/5), ("B", 1/5), ("C", 1/5), ("D", 1/5), ("E", 1/5)], none⟩
      3 0 =
      .ok [("A", -1), ("B", 1), ("C", 1), ("D", 1), ("E", 1)] ∧
    (∃ x ∈ [("A", (-1 : ℚ)), ("B", 1), ("C", 1), ("D", 1), ("E", 1)],
      x.2 < 0) := by
  constructor
  · with_unfolding_all rfl
  · exact ⟨("A", -1), by with_unfolding_all decide, by with_unfolding_all decide⟩

/-- C1 fails as stated: with matching key sets and `monthly_contribution ≥ 0`
the plan sum can differ from `round(monthly_contribution)`.  First input:
targets `{A: 0.64, B: 0.36}` (summing to 1), holdings all 0, contribution
2.5 — both shares round up, the residual `round(2.5 − 3) = round(−0.5) = 0`
never fires, and the sum is 3 while `round(2.5) = 2`.  Second input:
targets `{A: 0.5}` not summing to 1, contribution 100 — the zero-`needed`
fallback returns `{A: 50}`, summing to 50 rather than 100. -/
theorem C1_counterexample :
    (compute_contribution_plan
        ⟨[("A", 0), ("B", 0)], [("A", 16/25), ("B", 9/25)], none⟩ (5/2) 0 =
      .ok [("A", 2), ("B", 1)] ∧
     sumVals [("A", (2 : ℚ)), ("B", 1)] ≠ ((pyround ((5/2 : ℚ)) : ℤ) : ℚ) ∧
     sumVals [("A", (16/25 : ℚ)), ("B", 9/25)] = 1 ∧ (0 : ℚ) ≤ 5/2) ∧
    (compute_contribution_plan ⟨[("A", 100)], [("A", 1/2)], none⟩ 100 0 =
      .ok [("A", 50)] ∧
     sumVals [("A", (50 : ℚ))] ≠ ((pyround ((100 : ℚ)) : ℤ) : ℚ) ∧
     (0 : ℚ) ≤ 100) :=
  ⟨⟨by with_unfolding_all rfl, by with_unfolding_all decide,
    by with_unfolding_all decide, by with_unfolding_all decide⟩,
   by with_unfolding_all rfl, by with_unfolding_all decide,
    by with_unfolding_all decide⟩

/-- C1 (amended): for every portfolio whose holdings and targets are dicts
(unique keys) over the same key set and whose target weights sum to 1, and
every integer `monthly_contribution ≥ 0`, the plan returned by
`compute_contribution_plan` consists of integer amounts whose sum equals
`round(monthly_contribution)` exactly — including the fallback branch taken
when the total needed allocation is zero. -/
theorem C1_plan_sum_amended (p : Portfolio) (m : ℤ) (thr : ℚ)
    (hH : (p.holdings.map Prod.fst).Nodup)
    (hT : (p.targets.map Prod.fst).Nodup)
    (hK : keysMatch p.holdings p.targets)
    (hS : sumVals p.targets = 1) (hm : 0 ≤ m) :
    ∃ plan, compute_contribution_plan p (m : ℚ) thr = .ok plan ∧
      sumVals plan = ((pyround ((m : ℚ)) : ℤ) : ℚ) ∧
      (∀ x ∈ plan, ∃ z : ℤ, x.2 = (z : ℚ)) := by
  have hpm : pyround ((m : ℚ)) = m := pyround_intCast m
  refine ⟨planFor p (m : ℚ) thr,
    by rw [compute_contribution_plan, if_pos hK], ?_, ?_⟩
  · -- the sum of the plan equals round(monthly_contribution)
    rw [hpm]
    by_cases htn : sumVals (neededRaw p (m : ℚ) thr) = 0
    · -- fallback branch: the hypotheses force the contribution to be 0
      have hm0 : (m : ℚ) = 0 := by
        have hge := total_needed_ge p (m : ℚ) thr hH hT hK hS
        rw [htn] at hge
        have hge2 : (0 : ℚ) ≤ (m : ℚ) := by exact_mod_cast hm
        linarith
      rw [planFor_eq_fallback _ _ _ htn, hm0]
      unfold fallbackPlan
      rw [sumVals_map]
      simp [hm0]
    · -- main branch
      rw [planFor_eq_main _ _ _ htn]
      have hsumR : sumVals (roundedContribs (neededRaw p (m : ℚ) thr)
          (sumVals (neededRaw p (m : ℚ) thr)) (m : ℚ)) =
          (((neededRaw p (m : ℚ) thr).map (fun x =>
            pyround (if sumVals (neededRaw p (m : ℚ) thr) = 0 then (0 : ℚ)
              else x.2 / sumVals (neededRaw p (m : ℚ) thr) * (m : ℚ)))).sum : ℚ) := by
        rw [roundedContribs_eq, sumVals_intCast_map]
      have hdiff : pyround ((m : ℚ) - sumVals (roundedContribs
          (neededRaw p (m : ℚ) thr) (sumVals (neededRaw p (m : ℚ) thr)) (m : ℚ))) =
          m - ((neededRaw p (m : ℚ) thr).map (fun x =>
            pyround (if sumVals (neededRaw p (m : ℚ) thr) = 0 then (0 : ℚ)
              else x.2 / sumVals (neededRaw p (m : ℚ) thr) * (m : ℚ)))).sum := by
        rw [hsumR]
        rw [show ((m : ℚ) - ((((neededRaw p (m : ℚ) thr).map (fun x =>
            pyround (if sumVals (neededRaw p (m : ℚ) thr) = 0 then (0 : ℚ)
              else x.2 / sumVals (neededRaw p (m : ℚ) thr) * (m : ℚ)))).sum : ℤ) : ℚ))
            = (((m - ((neededRaw p (m : ℚ) thr).map (fun x =>
            pyround (if sumVals (neededRaw p (m : ℚ) thr) = 0 then (0 : ℚ)
              else x.2 / sumVals (neededRaw p (m : ℚ) thr) * (m : ℚ)))).sum : ℤ)) : ℚ)
          by push_cast; ring]
        exact pyround_intCast _
      split_ifs with hd
      · rw [hsumR]
        rw [hdiff] at hd
        have hSm : ((neededRaw p (m : ℚ) thr).map (fun x =>
            pyround (if sumVals (neededRaw p (m : ℚ) thr) = 0 then (0 : ℚ)
              else x.2 / sumVals (neededRaw p (m : ℚ) thr) * (m : ℚ)))).sum = m := by
          omega
        rw [hSm]
      · have hLne : neededRaw p (m : ℚ) thr ≠ [] := by
          intro he
          exact htn (by rw [he]; rfl)
        have hRne : roundedContribs (neededRaw p (m : ℚ) thr)
            (sumVals (neededRaw p (m : ℚ) thr)) (m : ℚ) ≠ [] := by
          rw [roundedContribs_eq]
          exact fun hh => hLne (List.map_eq_nil_iff.mp hh)
        rw [sumVals_addToFirst _ _ _ (argmaxKey_mem _ hRne), hdiff, hsumR]
        push_cast
        ring
  · -- every amount in the plan is an integer
    by_cases htn : sumVals (neededRaw p (m : ℚ) thr) = 0
    · have hm0 : (m : ℚ) = 0 := by
        have hge := total_needed_ge p (m : ℚ) thr hH hT hK hS
        rw [htn] at hge
        have hge2 : (0 : ℚ) ≤ (m : ℚ) := by exact_mod_cast hm
        linarith
      rw [planFor_eq_fallback _ _ _ htn]
      intro x hx
      unfold fallbackPlan at hx
      rw [hm0] at hx
      rcases List.mem_map.mp hx with ⟨h0, _, rfl⟩
      exact ⟨0, by simp⟩
    · rw [planFor_eq_main _ _ _ htn]
      split_ifs with hd
      · exact mem_roundedContribs _ _ _
      · intro y hy
        rcases mem_addToFirst _ _ _ y hy with h | ⟨x, hx, he⟩
        · exact mem_roundedContribs _ _ _ y h
        · rcases mem_roundedContribs _ _ _ x hx with ⟨z, hz⟩
          refine ⟨z + pyround ((m : ℚ) - sumVals (roundedContribs
            (neededRaw p (m : ℚ) thr)
            (sumVals (neededRaw p (m : ℚ) thr)) (m : ℚ))), ?_⟩
          rw [he]
          simp only
          rw [hz]
          push_cast
          ring

theorem C1_plan_sum_amended_witness :
    (List.map Prod.fst [("A", (100 : ℚ)), ("B", 100)]).Nodup ∧
    (List.map Prod.fst [("A", (1/2 : ℚ)), ("B", 1/2)]).Nodup ∧
    keysMatch [("A", (100 : ℚ)), ("B", 100)] [("A", (1/2 : ℚ)), ("B", 1/2)] ∧
    sumVals [("A", (1/2 : ℚ)), ("B", 1/2)] = 1 ∧ (0 : ℤ) ≤ 10 ∧
    (∃ plan, compute_contribution_plan
        ⟨[("A", 100), ("B", 100)], [("A", 1/2), ("B", 1/2)], none⟩
        (((10 : ℤ)) : ℚ) 0 = .ok plan ∧
      sumVals plan = ((pyround ((((10 : ℤ)) : ℚ)) : ℤ) : ℚ) ∧
      (∀ x ∈ plan, ∃ z : ℤ, x.2 = (z : ℚ))) :=
  ⟨by decide, by decide, by decide, by with_unfolding_all decide, by decide,
    C1_plan_sum_amended
      ⟨[("A", 100), ("B", 100)], [("A", 1/2), ("B", 1/2)], none⟩ 10 0
      (by decide) (by decide) (by decide) (by with_unfolding_all decide)
      (by decide)⟩

end Rebalance
